import Mathlib

/-!
Verification of `NFT_CSVcreation.py` (ELEN6883 final project).

The repository contains three concatenated Python scripts:
* a resumable GraphQL collector (`fetch_nft_sales`, `parse_sale_data`,
  `collect_and_process_nft_sales`, `prepare_data_for_llm`) — "pipeline 1";
* a second, simplified copy of the same collector — "pipeline 2";
* a web3 transaction decoder (`get_collection_name`, `get_item_type_name`,
  `decode_transaction`, `process_transaction_batch`) — "pipeline 3".

All claims reference pipeline 1 (the version with the try/except normalizer
and the consecutive-failure breaker) and pipeline 3 (the decoder).  This file
shallowly embeds those functions.  Modelling conventions:
* Python exceptions are `Except String`; a `try/except: return None` wrapper
  becomes `Except.toOption`.
* network collaborators (`requests`, `web3`) are explicit oracle arguments;
* Python `int`/floats over wei amounts are modelled as `Int`/`ℚ` (exact
  rationals stand in for the script's float accumulation);
* `datetime.fromtimestamp` is modelled in UTC over datetime's representable
  range (year 1 to year 9999); outside it the call raises.
-/

/-- Strip leading and trailing whitespace (Python `str.strip()`),
character-list form. -/
def stripChars (l : List Char) : List Char :=
  ((l.dropWhile Char.isWhitespace).reverse.dropWhile Char.isWhitespace).reverse

/-- Decimal value of a digit string. -/
def digitsVal (l : List Char) : Nat :=
  l.foldl (fun acc c => acc * 10 + (c.toNat - 48)) 0

/-- Python `int(s)` on a string: strips surrounding whitespace, accepts an
optional sign followed by decimal digits (digit-group underscores are not
modelled).  Returns `none` where Python raises `ValueError`. -/
def parseIntPy (s : String) : Option Int :=
  let t := stripChars s.data
  let (neg, digits) :=
    match t with
    | '-' :: rest => (true, rest)
    | '+' :: rest => (false, rest)
    | l => (false, l)
  if digits ≠ [] ∧ digits.all Char.isDigit then
    some (if neg then -(digitsVal digits : Int) else (digitsVal digits : Int))
  else none

/-- Python `str.lower()` (ASCII addresses only appear in this code base). -/
def lowerStr (s : String) : String := String.mk (s.data.map Char.toLower)

/-- Lowest unix timestamp `datetime.fromtimestamp` accepts (0001-01-01 UTC). -/
def minDatetimeTs : Int := -62135596800

/-- Highest unix timestamp `datetime.fromtimestamp` accepts
(9999-12-31 23:59:59 UTC). -/
def maxDatetimeTs : Int := 253402300799

/-- Whether `datetime.fromtimestamp(ts)` succeeds (UTC model). -/
def fromtimestampOk (ts : Int) : Bool :=
  decide (minDatetimeTs ≤ ts ∧ ts ≤ maxDatetimeTs)

/-- Civil date (year, month, day) from days since the unix epoch
(Howard Hinnant's `civil_from_days`). -/
def civilFromDays (z : Int) : Int × Nat × Nat :=
  let z' := z + 719468
  let era := z'.fdiv 146097
  let doe := (z' - era * 146097).toNat
  let yoe := (doe - doe / 1460 + doe / 36524 - doe / 146096) / 365
  let y := (yoe : Int) + era * 400
  let doy := doe - (365 * yoe + yoe / 4 - yoe / 100)
  let mp := (5 * doy + 2) / 153
  let d := doy - (153 * mp + 2) / 5 + 1
  let m := if mp < 10 then mp + 3 else mp - 9
  (if m ≤ 2 then y + 1 else y, m, d)

/-- Zero-pad a natural number to two digits (`strftime` `%d`/`%m`/`%H`…). -/
def pad2 (n : Nat) : String :=
  if n < 10 then "0" ++ toString n else toString n

/-- Zero-pad a year to four digits (`strftime` `%Y`). -/
def pad4 (n : Nat) : String :=
  if n < 10 then "000" ++ toString n
  else if n < 100 then "00" ++ toString n
  else if n < 1000 then "0" ++ toString n
  else toString n

/-- `strftime('%Y-%m-%d')` of `datetime.fromtimestamp ts` (UTC model). -/
def dateStrOf (ts : Int) : String :=
  let (y, m, d) := civilFromDays (ts.fdiv 86400)
  pad4 y.toNat ++ "-" ++ pad2 m ++ "-" ++ pad2 d

/-- Seconds into the day of timestamp `ts`. -/
def secondsOfDay (ts : Int) : Nat := (ts.emod 86400).toNat

/-- `strftime('%H:%M:%S')` of `datetime.fromtimestamp ts` (UTC model). -/
def timeStrOf (ts : Int) : String :=
  let s := secondsOfDay ts
  pad2 (s / 3600) ++ ":" ++ pad2 (s % 3600 / 60) ++ ":" ++ pad2 (s % 60)

/-- `datetime.weekday()`: 0 = Monday … 6 = Sunday (1970-01-01 was a
Thursday, index 3). -/
def weekdayOf (ts : Int) : Nat := ((ts.fdiv 86400 + 3).emod 7).toNat

/-- The `weekday_names` table of `parse_sale_data` (index 0 = Monday). -/
def weekday_names : List String :=
  ["Monday", "Tuesday", "Wednesday", "Thursday", "Friday", "Saturday", "Sunday"]

/-- `datetime.hour` of `datetime.fromtimestamp ts` (UTC model). -/
def hourOf (ts : Int) : Nat := secondsOfDay ts / 3600

/-- One raw record of the GraphQL `orderFulfilleds` response, as consumed by
`parse_sale_data`.  Every field is optional because the code reads each one
with `sale.get(key, default)`. -/
structure RawSale where
  transactionHash : Option String
  offerer : Option String
  recipient : Option String
  zone : Option String
  orderHash : Option String
  blockTimestamp : Option String
  blockNumber : Option String
deriving Repr, DecidableEq

/-- The record dictionary returned by `parse_sale_data` (§3 TradeRecord). -/
structure TradeRecord where
  transaction_hash : String
  order_hash : String
  seller : String
  buyer : String
  zone : String
  timestamp : Int
  date : String
  time : String
  day_of_week : Nat
  day_name : String
  hour : Nat
  is_weekend : Bool
  block_number : Int
deriving Repr, DecidableEq

/-- Body of pipeline 1's `parse_sale_data` (the code inside its `try`),
raising `ValueError` where `int(...)` or `datetime.fromtimestamp` would. -/
def parse_sale_data_body (sale : RawSale) : Except String TradeRecord := do
  let transaction_hash := sale.transactionHash.getD ""
  let offerer := sale.offerer.getD ""
  let recipient := sale.recipient.getD ""
  let zone := sale.zone.getD ""
  let order_hash := sale.orderHash.getD ""
  let block_timestamp ←
    match parseIntPy (sale.blockTimestamp.getD "0") with
    | some v => Except.ok v
    | none => Except.error "ValueError: invalid literal for int()"
  let block_number ←
    match parseIntPy (sale.blockNumber.getD "0") with
    | some v => Except.ok v
    | none => Except.error "ValueError: invalid literal for int()"
  if fromtimestampOk block_timestamp then
    let day_of_week := weekdayOf block_timestamp
    Except.ok
      { transaction_hash := transaction_hash
        order_hash := order_hash
        seller := offerer
        buyer := recipient
        zone := zone
        timestamp := block_timestamp
        date := dateStrOf block_timestamp
        time := timeStrOf block_timestamp
        day_of_week := day_of_week
        day_name := (weekday_names.get? day_of_week).getD ""
        hour := hourOf block_timestamp
        is_weekend := decide (5 ≤ day_of_week)
        block_number := block_number }
  else
    Except.error "ValueError: timestamp out of range"

/-- Pipeline 1's `parse_sale_data`: the body above wrapped in
`try/except: return None`. -/
def parse_sale_data (sale : RawSale) : Option TradeRecord :=
  (parse_sale_data_body sale).toOption

/-- The mutable state of pipeline 1's `collect_and_process_nft_sales` loop.
`requests` is ghost instrumentation: it records, for each `fetch_nft_sales`
call the loop issues, the pair (requested `skip` offset, value of
`processed_count` at that moment).  The Python code has no such variable;
it exists only so theorems can speak about the requests the loop makes. -/
structure CollectState where
  all_sales : List TradeRecord
  processed_count : Nat
  error_count : Nat
  requests : List (Nat × Nat)
deriving Repr, DecidableEq

/-- `max_errors = 5` in `collect_and_process_nft_sales`. -/
def max_errors : Nat := 5

/-- Processing of one non-empty batch (lines 152–163 of the source):
reset `error_count`, parse every sale, append the successful parses, and
advance `processed_count` by the number of new records.  Checkpoint writing
and the progress bar are I/O and are not modelled. -/
def mergeBatch (st : CollectState) (batch : List RawSale) : CollectState :=
  let parsed := batch.filterMap parse_sale_data
  { st with
    all_sales := st.all_sales ++ parsed
    processed_count := st.processed_count + parsed.length
    error_count := 0 }

/-- The skip values of Python's `range(start, total, step)`. -/
def skipsList (start total step : Nat) : List Nat :=
  List.range' start ((total - start + step - 1) / step) step

/-- The body of the `for skip in range(...)` loop of
`collect_and_process_nft_sales` (pipeline 1), one skip value at a time.
`fetch first skip` is the `fetch_nft_sales` collaborator (which returns `[]`
on any transport or protocol error).  An empty batch increments
`error_count` and breaks once it reaches `max_errors`; a non-empty batch is
merged via `mergeBatch`.  The outer per-batch `except` handler is
unreachable in this model (both `fetch_nft_sales` and `parse_sale_data`
catch their own exceptions; checkpoint I/O is not modelled), and
`time.sleep` is irrelevant to the state. -/
def collectLoop (fetch : Nat → Nat → List RawSale) (batch_size : Nat) :
    List Nat → CollectState → CollectState
  | [], st => st
  | skip :: rest, st =>
    let st := { st with requests := st.requests ++ [(skip, st.processed_count)] }
    let batch := fetch batch_size skip
    if batch.isEmpty then
      let ec := st.error_count + 1
      if max_errors ≤ ec then { st with error_count := ec }
      else collectLoop fetch batch_size rest { st with error_count := ec }
    else
      collectLoop fetch batch_size rest (mergeBatch st batch)

/-- Initial `CollectState` of `collect_and_process_nft_sales`: if the temp
checkpoint file exists its records are loaded and
`processed_count = len(all_sales)`; otherwise the state starts empty. -/
def initialCollectState (checkpoint : Option (List TradeRecord)) : CollectState :=
  match checkpoint with
  | some ck => { all_sales := ck, processed_count := ck.length, error_count := 0, requests := [] }
  | none => { all_sales := [], processed_count := 0, error_count := 0, requests := [] }

/-- Pipeline 1's `collect_and_process_nft_sales`, with the network
collaborator `fetch` and the optional loaded checkpoint made explicit.  The
function's Python return value is the DataFrame built from
`(result).all_sales`. -/
def collect_and_process_nft_sales (fetch : Nat → Nat → List RawSale)
    (total_records batch_size : Nat)
    (checkpoint : Option (List TradeRecord)) : CollectState :=
  let st := initialCollectState checkpoint
  collectLoop fetch batch_size (skipsList st.processed_count total_records batch_size) st

/-- Pipeline 3's `NFT_COLLECTIONS` dictionary, which is empty (`{}`) in the
decoder script. -/
def NFT_COLLECTIONS : List (String × String) := []

/-- Etherscan API key literal from `get_collection_name`. -/
def etherscan_api_key : String := "WVHKCRZKBCJY35AT4QP7Y9386B18Q864QD"

/-- The Etherscan `getsourcecode` URL built by `get_collection_name`. -/
def etherscanUrl (token_address : String) : String :=
  "https://api.etherscan.io/api?module=contract&action=getsourcecode&address="
    ++ token_address ++ "&apikey=" ++ etherscan_api_key

/-- Pipeline 3's `get_collection_name`.  `http` models
`requests.get(url, timeout=5)` followed by `response.json()`: it returns the
(unused) parsed body on success and the raised exception's message on
failure.  The function has no `try/except`, so an `http` failure propagates
to the caller. -/
def get_collection_name (http : String → Except String Unit)
    (token_address : String) : Except String String :=
  let address_lower := lowerStr token_address
  match NFT_COLLECTIONS.lookup address_lower with
  | some name => Except.ok name
  | none => do
    let _ ← http (etherscanUrl token_address)
    Except.ok token_address

/-- The `item_types` dictionary of `get_item_type_name`. -/
def item_types : List (Nat × String) := [(0, "NATIVE"), (1, "ERC20"), (2, "ERC721")]

/-- Pipeline 3's `get_item_type_name`: dictionary lookup with the
`f"UNKNOWN ({item_type})"` default. -/
def get_item_type_name (item_type : Nat) : String :=
  match item_types.lookup item_type with
  | some name => name
  | none => "UNKNOWN (" ++ toString item_type ++ ")"

/-- One entry of `event_data.offer` (Seaport `SpentItem`). -/
structure OfferItem where
  itemType : Nat
  token : String
  identifier : Int
  amount : Int
deriving Repr, DecidableEq

/-- One entry of `event_data.consideration` (Seaport `ReceivedItem`). -/
structure ConsiderationItem where
  itemType : Nat
  token : String
  identifier : Int
  amount : Int
  recipient : String
deriving Repr, DecidableEq

/-- The `args` of a decoded `OrderFulfilled` event (`orderHash` is modelled
as its hex string, matching the `event_data.orderHash.hex()` the code
stores). -/
structure OrderFulfilledArgs where
  orderHash : String
  offerer : String
  zone : String
  recipient : String
  offer : List OfferItem
  consideration : List ConsiderationItem
deriving Repr, DecidableEq

/-- One receipt log entry.  `parsedOrderFulfilled` models the outcome of
`seaport_contract.events.OrderFulfilled().process_log(log)`: `some args` if
the log decodes as an `OrderFulfilled` event, `none` if `process_log`
raises (the code skips such logs). -/
structure LogEntry where
  address : String
  parsedOrderFulfilled : Option OrderFulfilledArgs
deriving Repr, DecidableEq

/-- Fields of `w3.eth.get_transaction(tx_hash)` used by the decoder. -/
structure TxData where
  fromAddr : String
  toAddr : Option String
  gasPrice : Int
deriving Repr, DecidableEq

/-- Fields of `w3.eth.get_transaction_receipt(tx_hash)` used by the decoder. -/
structure ReceiptData where
  blockNumber : Int
  gasUsed : Int
  logs : List LogEntry
deriving Repr, DecidableEq

/-- Fields of `w3.eth.get_block(n)` used by the decoder. -/
structure BlockData where
  timestamp : Int
deriving Repr, DecidableEq

/-- The web3 node collaborator: the three lookups `decode_transaction`
performs, each of which can raise. -/
structure W3 where
  getTransaction : String → Except String TxData
  getTransactionReceipt : String → Except String ReceiptData
  getBlock : Int → Except String BlockData

/-- The Seaport contract object: only its address is consulted by the
decoder (log parsing is modelled inside `LogEntry`). -/
structure Contract where
  address : String
deriving Repr, DecidableEq

/-- `w3.from_wei(amount, 'ether')`, exactly: divide by 10^18. -/
def fromWeiEther (amount : Int) : ℚ := (amount : ℚ) / 10 ^ 18

/-- `w3.from_wei(amount, 'gwei')`, exactly: divide by 10^9. -/
def fromWeiGwei (amount : Int) : ℚ := (amount : ℚ) / 10 ^ 9

/-- One entry of the decoder's `nft_items` list.  `collection_name` and
`opensea_link` are `Option` because the Python dict only gains those keys
for item types 2–5. -/
structure OfferItemInfo where
  item_type : Nat
  item_type_name : String
  token_address : String
  token_id : Int
  amount : Int
  is_nft : Bool
  collection_name : Option String
  opensea_link : Option String
deriving Repr, DecidableEq

/-- One entry of the decoder's `payment_items` list.  `amount_eth` is only
present for item types 0 and 1. -/
structure PaymentItemInfo where
  item_type : Nat
  item_type_name : String
  token_address : String
  token_id : Int
  amount : Int
  recipient : String
  amount_eth : Option ℚ
deriving Repr, DecidableEq

/-- The `transaction_info` dictionary `decode_transaction` returns on its
success path (all keys present; `has_order_fulfilled` is only ever set to
`True` by the code). -/
structure TransactionInfo where
  hash : String
  fromAddr : String
  toAddr : Option String
  block_number : Int
  timestamp : Int
  datetimeStr : String
  gas_used : Int
  gas_price : ℚ
  tx_fee_eth : ℚ
  has_order_fulfilled : Bool
  order_hash : String
  offerer : String
  zone : String
  recipient : String
  total_price_eth : ℚ
  nft_items : List OfferItemInfo
  payment_items : List PaymentItemInfo
deriving Repr, DecidableEq

/-- The receipt-log scan of `decode_transaction` (lines 767–775): keep logs
whose address matches the Seaport contract address case-insensitively and
which decode as `OrderFulfilled`; decode failures are skipped. -/
def orderFulfilledEvents (logs : List LogEntry) (seaport_contract : Contract) :
    List OrderFulfilledArgs :=
  logs.filterMap fun log =>
    if lowerStr log.address = lowerStr seaport_contract.address then
      log.parsedOrderFulfilled
    else none

/-- The offer-item loop body of `decode_transaction`: classify the item and,
for the NFT types `[2, 3, 4, 5]`, attach `get_collection_name` (which can
raise) and an OpenSea link. -/
def processOfferItem (http : String → Except String Unit) (item : OfferItem) :
    Except String OfferItemInfo :=
  let t := item.itemType
  let base : OfferItemInfo :=
    { item_type := t
      item_type_name := get_item_type_name t
      token_address := item.token
      token_id := item.identifier
      amount := item.amount
      is_nft := false
      collection_name := none
      opensea_link := none }
  if t ∈ [2, 3, 4, 5] then do
    let name ← get_collection_name http item.token
    Except.ok
      { base with
        is_nft := true
        collection_name := some name
        opensea_link :=
          some ("https://opensea.io/assets/" ++ item.token ++ "/" ++ toString item.identifier) }
  else Except.ok base

/-- The consideration loop of `decode_transaction`: build `payment_items`
and accumulate `total_eth_value` (starting from `0`) by adding
`from_wei(amount, 'ether')` for item types `[0, 1]`.  The script sums Python
floats; the model sums the exact rationals those floats approximate. -/
def processPayments (items : List ConsiderationItem) : List PaymentItemInfo × ℚ :=
  items.foldl
    (fun acc item =>
      let t := item.itemType
      let base : PaymentItemInfo :=
        { item_type := t
          item_type_name := get_item_type_name t
          token_address := item.token
          token_id := item.identifier
          amount := item.amount
          recipient := item.recipient
          amount_eth := none }
      if t ∈ [0, 1] then
        let amount_eth := fromWeiEther item.amount
        (acc.1 ++ [{ base with amount_eth := some amount_eth }], acc.2 + amount_eth)
      else (acc.1 ++ [base], acc.2))
    ([], 0)

/-- Pipeline 3's `decode_transaction`.  Failure values model the Python
exceptions the function can raise: a `w3` lookup failure, a
`datetime.fromtimestamp` range error, the `order_fulfilled_events[0]`
`IndexError` when no log matches, and a propagated `get_collection_name`
network error. -/
def decode_transaction (w3 : W3) (http : String → Except String Unit)
    (tx_hash : String) (seaport_contract : Contract) :
    Except String TransactionInfo := do
  let tx ← w3.getTransaction tx_hash
  let receipt ← w3.getTransactionReceipt tx_hash
  let block ← w3.getBlock receipt.blockNumber
  let dt ←
    if fromtimestampOk block.timestamp then
      Except.ok (dateStrOf block.timestamp ++ " " ++ timeStrOf block.timestamp)
    else Except.error "ValueError: timestamp out of range"
  match orderFulfilledEvents receipt.logs seaport_contract with
  | [] => Except.error "IndexError: list index out of range"
  | event_data :: _ => do
    let nft_items ← event_data.offer.mapM (processOfferItem http)
    let (payment_items, total_eth_value) := processPayments event_data.consideration
    Except.ok
      { hash := tx_hash
        fromAddr := tx.fromAddr
        toAddr := tx.toAddr
        block_number := receipt.blockNumber
        timestamp := block.timestamp
        datetimeStr := dt
        gas_used := receipt.gasUsed
        gas_price := fromWeiGwei tx.gasPrice
        tx_fee_eth := fromWeiEther (tx.gasPrice * receipt.gasUsed)
        has_order_fulfilled := true
        order_hash := event_data.orderHash
        offerer := event_data.offerer
        zone := event_data.zone
        recipient := event_data.recipient
        total_price_eth := total_eth_value
        nft_items := nft_items
        payment_items := payment_items }

/-- `sales_df.sort_values("timestamp", ascending=False)`: a timestamp-
descending reordering of the records (pandas' unstable quicksort is
determinised as a merge sort). -/
def sortDescByTimestamp (records : List TradeRecord) : List TradeRecord :=
  records.mergeSort fun a b => decide (b.timestamp ≤ a.timestamp)

/-- `sales_df["transaction_index"] = range(1, len(sales_df) + 1)` applied to
the timestamp-sorted frame: pair every record with its 1-based index. -/
def addTransactionIndex (records : List TradeRecord) : List (Nat × TradeRecord) :=
  (List.range' 1 records.length).zip records

/-- The columns `prepare_data_for_llm` keeps for
`llm_nft_transactions_sample.csv`. -/
structure LlmRow where
  transaction_index : Nat
  transaction_hash : String
  seller : String
  buyer : String
  date : String
  time : String
  day_name : String
  hour : Nat
  is_weekend : Bool
deriving Repr, DecidableEq

/-- Column selection of one indexed record. -/
def toLlmRow (p : Nat × TradeRecord) : LlmRow :=
  { transaction_index := p.1
    transaction_hash := p.2.transaction_hash
    seller := p.2.seller
    buyer := p.2.buyer
    date := p.2.date
    time := p.2.time
    day_name := p.2.day_name
    hour := p.2.hour
    is_weekend := p.2.is_weekend }

/-- Pipeline 1's `prepare_data_for_llm` (lines 273–298), restricted to the
rows written to `llm_nft_transactions_sample.csv` (the groupby summary CSVs
are out-of-scope sinks).  `older_df.sample(n)` draws `n` distinct rows; the
draw is modelled by `pick`, the list of drawn positions within `older_df`
(uniformity of pandas' RNG is abstracted: theorems quantify over every
duplicate-free draw). -/
def prepare_data_for_llm (records : List TradeRecord) (sample_size : Nat)
    (pick : List Nat) : List LlmRow :=
  let indexed := addTransactionIndex (sortDescByTimestamp records)
  let llm_sales :=
    if sample_size < indexed.length then
      let recent_records := min (sample_size / 2) indexed.length
      let recent_df := indexed.take recent_records
      let older_df := indexed.drop recent_records
      recent_df ++ pick.filterMap fun i => older_df.get? i
    else indexed
  llm_sales.map toLlmRow

/-- Monad-bind computation rule for `Except.ok` (used to unfold the
do-blocks of the embedded functions). -/
@[simp] theorem except_ok_bind {ε α β : Type} (a : α) (f : α → Except ε β) :
    (Except.ok a >>= f) = f a := rfl

/-- Monad-bind computation rule for `Except.error`. -/
@[simp] theorem except_error_bind {ε α β : Type} (e : ε) (f : α → Except ε β) :
    ((Except.error e : Except ε α) >>= f) = Except.error e := rfl

/-- Claim C6: `get_item_type_name` maps 0 to "NATIVE", 1 to "ERC20", 2 to
"ERC721", and every other value to `"UNKNOWN (<value>)"`, never rejecting
an unrecognized value. -/
theorem item_type_name_table :
    get_item_type_name 0 = "NATIVE" ∧ get_item_type_name 1 = "ERC20" ∧
    get_item_type_name 2 = "ERC721" ∧
    ∀ t : Nat, t ≠ 0 → t ≠ 1 → t ≠ 2 →
      get_item_type_name t = "UNKNOWN (" ++ toString t ++ ")" := by
  refine ⟨rfl, rfl, rfl, ?_⟩
  intro t h0 h1 h2
  obtain _ | _ | _ | t := t
  · exact absurd rfl h0
  · exact absurd rfl h1
  · exact absurd rfl h2
  · rfl

/-- Witness for C6 at the concrete unknown value 7. -/
theorem item_type_name_table_witness : get_item_type_name 7 = "UNKNOWN (7)" := by
  have h := item_type_name_table.2.2.2 7 (by decide) (by decide) (by decide)
  rw [h]
  decide

/-- Claim C10: pipeline 1's `parse_sale_data` is total — on every input it
either returns the complete record its `try` body built, or returns `None`
because the body raised; no exception propagates to the caller. -/
theorem parse_sale_data_total (sale : RawSale) :
    (∃ r, parse_sale_data_body sale = Except.ok r ∧ parse_sale_data sale = some r) ∨
    (∃ e, parse_sale_data_body sale = Except.error e ∧ parse_sale_data sale = none) := by
  cases h : parse_sale_data_body sale with
  | error e => exact Or.inr ⟨e, rfl, by simp [parse_sale_data, h, Except.toOption]⟩
  | ok r => exact Or.inl ⟨r, rfl, by simp [parse_sale_data, h, Except.toOption]⟩

/-- A raw record with no `transactionHash` key but a parseable timestamp. -/
def rawMissingHash : RawSale :=
  { transactionHash := none
    offerer := some "0xa"
    recipient := some "0xb"
    zone := some "0xz"
    orderHash := some "0xo"
    blockTimestamp := some "1700000000"
    blockNumber := some "100" }

/-- Claim C5 counterexample: a raw record that is missing `transactionHash`
is NOT dropped — `parse_sale_data` keeps it, with the hash defaulted to the
empty string by `sale.get("transactionHash", "")`. -/
theorem parse_missing_hash_kept_counterexample :
    rawMissingHash.transactionHash = none ∧
    (parse_sale_data rawMissingHash).isSome = true ∧
    (parse_sale_data rawMissingHash).map (fun r => r.transaction_hash) = some "" := by
  decide

/-- Claim C5 amended: `parse_sale_data` drops a record exactly when its
`blockTimestamp` or `blockNumber` (each defaulting to `"0"` when missing)
fails to parse as an integer, or the parsed timestamp is outside
`datetime.fromtimestamp`'s range; a record merely missing `transactionHash`
is kept (see the counterexample).  The output batch is shorter than the
input by exactly the number of dropped records. -/
theorem parse_drop_characterization :
    (∀ sale : RawSale,
      parse_sale_data sale = none ↔
        (parseIntPy (sale.blockTimestamp.getD "0") = none ∨
         parseIntPy (sale.blockNumber.getD "0") = none ∨
         (∃ v, parseIntPy (sale.blockTimestamp.getD "0") = some v ∧
            fromtimestampOk v = false))) ∧
    (∀ batch : List RawSale,
      (batch.filterMap parse_sale_data).length =
        batch.length - batch.countP fun s => (parse_sale_data s).isNone) := by
  constructor
  · intro sale
    cases h1 : parseIntPy (sale.blockTimestamp.getD "0") with
    | none => simp [parse_sale_data, parse_sale_data_body, h1, Except.toOption]
    | some v =>
      cases h2 : parseIntPy (sale.blockNumber.getD "0") with
      | none => simp [parse_sale_data, parse_sale_data_body, h1, h2, Except.toOption]
      | some w =>
        cases hok : fromtimestampOk v <;>
          simp [parse_sale_data, parse_sale_data_body, h1, h2, hok, Except.toOption]
  · intro batch
    induction batch with
    | nil => simp
    | cons s t ih =>
      have hc : (t.countP fun s => (parse_sale_data s).isNone) ≤ t.length :=
        List.countP_le_length _
      cases h : parse_sale_data s <;>
        simp [h, ih, List.countP_cons, List.filterMap_cons]
      all_goals omega

/-- Claim C1 (code bug): when the receipt contains no log that both comes
from the Seaport contract address and decodes as `OrderFulfilled`,
`decode_transaction` evaluates `order_fulfilled_events[0]` on an empty list
and raises `IndexError` — it never returns a result with
`has_order_fulfilled = false`. -/
theorem decode_no_matching_logs_raises (w3 : W3) (http : String → Except String Unit)
    (tx_hash : String) (sc : Contract) (tx : TxData) (receipt : ReceiptData)
    (block : BlockData)
    (htx : w3.getTransaction tx_hash = Except.ok tx)
    (hrc : w3.getTransactionReceipt tx_hash = Except.ok receipt)
    (hbl : w3.getBlock receipt.blockNumber = Except.ok block)
    (hts : fromtimestampOk block.timestamp = true)
    (hev : orderFulfilledEvents receipt.logs sc = []) :
    decode_transaction w3 http tx_hash sc =
      Except.error "IndexError: list index out of range" := by
  simp [decode_transaction, htx, hrc, hbl, hts, hev]

/-- A web3 oracle whose receipt for any hash carries zero logs. -/
def w3NoLogs : W3 :=
  { getTransaction := fun _ => Except.ok ⟨"0xfrom", some "0xto", 20000000000⟩
    getTransactionReceipt := fun _ => Except.ok ⟨18000000, 21000, []⟩
    getBlock := fun _ => Except.ok ⟨1700000000⟩ }

/-- The Seaport 1.5 contract address used by `process_transaction_batch`. -/
def seaportContract : Contract := ⟨"0x00000000000000ADc04C56Bf30aC9d3c0aAF14dC"⟩

/-- Witness for C1: decoding a transaction whose receipt has an empty log
list raises the IndexError. -/
theorem decode_no_matching_logs_raises_witness :
    decode_transaction w3NoLogs (fun _ => Except.ok ()) "0xhash" seaportContract =
      Except.error "IndexError: list index out of range" :=
  decode_no_matching_logs_raises w3NoLogs (fun _ => Except.ok ()) "0xhash"
    seaportContract _ _ _ rfl rfl rfl (by decide) rfl

/-- Claim C9 counterexample: a transport failure of the Etherscan request
propagates out of `get_collection_name` (the function has no `try/except`),
contradicting "falls back … on any failure; it never raises an error to its
caller". -/
theorem get_collection_name_failure_counterexample :
    get_collection_name (fun _ => Except.error "requests.exceptions.ConnectionError")
        "0xdeadbeef" =
      Except.error "requests.exceptions.ConnectionError" := rfl

/-- Claim C9 amended: when the Etherscan request succeeds (and the local
`NFT_COLLECTIONS` dictionary — empty in this script — has no entry),
`get_collection_name` returns the input address unchanged; when the request
raises, the exception propagates to the caller. -/
theorem get_collection_name_behavior (http : String → Except String Unit)
    (addr : String) :
    (http (etherscanUrl addr) = Except.ok () →
      get_collection_name http addr = Except.ok addr) ∧
    (∀ e, http (etherscanUrl addr) = Except.error e →
      get_collection_name http addr = Except.error e) := by
  constructor
  · intro h
    simp [get_collection_name, NFT_COLLECTIONS, h]
  · intro e h
    simp [get_collection_name, NFT_COLLECTIONS, h]

/-- Witness for the amended C9 at a concrete succeeding request. -/
theorem get_collection_name_behavior_witness :
    get_collection_name (fun _ => Except.ok ()) "0xabc" = Except.ok "0xabc" :=
  (get_collection_name_behavior (fun _ => Except.ok ()) "0xabc").1 rfl

/-- Claim C2: the failure breaker of `collect_and_process_nft_sales`.  With
the consecutive-failure counter at zero and the next four page fetches
empty, the loop keeps going; then (a) if the fifth fetch is also empty the
loop breaks with the counter exactly at the threshold 5, returning the
partial accumulated sequence with `processed_count` unchanged from before
those five attempts, and (b) if the fifth fetch is non-empty the loop does
not stop: it merges the batch, resets the counter to zero, and continues
with the remaining skip values. -/
theorem collect_breaker_threshold (fetch : Nat → Nat → List RawSale) (b : Nat)
    (s1 s2 s3 s4 s5 : Nat) (rest : List Nat) (st : CollectState)
    (h0 : st.error_count = 0)
    (h1 : fetch b s1 = []) (h2 : fetch b s2 = []) (h3 : fetch b s3 = [])
    (h4 : fetch b s4 = []) :
    (fetch b s5 = [] →
      (collectLoop fetch b (s1 :: s2 :: s3 :: s4 :: s5 :: rest) st).all_sales =
          st.all_sales ∧
      (collectLoop fetch b (s1 :: s2 :: s3 :: s4 :: s5 :: rest) st).processed_count =
          st.processed_count ∧
      (collectLoop fetch b (s1 :: s2 :: s3 :: s4 :: s5 :: rest) st).error_count = 5) ∧
    (fetch b s5 ≠ [] →
      collectLoop fetch b (s1 :: s2 :: s3 :: s4 :: s5 :: rest) st =
        collectLoop fetch b rest
          { all_sales := st.all_sales ++ (fetch b s5).filterMap parse_sale_data
            processed_count :=
              st.processed_count + ((fetch b s5).filterMap parse_sale_data).length
            error_count := 0
            requests := st.requests ++
              [(s1, st.processed_count), (s2, st.processed_count),
               (s3, st.processed_count), (s4, st.processed_count),
               (s5, st.processed_count)] }) := by
  constructor
  · intro h5
    simp [collectLoop, h0, h1, h2, h3, h4, h5, max_errors]
  · intro h5
    cases hx : fetch b s5 with
    | nil => exact absurd hx h5
    | cons x xs =>
      simp [collectLoop, h0, h1, h2, h3, h4, hx, max_errors, mergeBatch]

/-- A page fetcher that always returns the empty page (every transport or
protocol failure of `fetch_nft_sales` surfaces this way). -/
def fetchAlwaysEmpty : Nat → Nat → List RawSale := fun _ _ => []

/-- Witness for C2: five empty fetches starting from a zero counter stop the
loop with the counter exactly at 5. -/
theorem collect_breaker_threshold_witness :
    (collectLoop fetchAlwaysEmpty 100 [0, 100, 200, 300, 400] ⟨[], 0, 0, []⟩).error_count
      = 5 :=
  ((collect_breaker_threshold fetchAlwaysEmpty 100 0 100 200 300 400 []
      ⟨[], 0, 0, []⟩ rfl rfl rfl rfl rfl).1 rfl).2.2

/-- `filterMap` keeps every element on which the function succeeds. -/
theorem length_filterMap_of_isSome {α β : Type} (f : α → Option β) :
    ∀ l : List α, (∀ x ∈ l, (f x).isSome) → (l.filterMap f).length = l.length := by
  intro l
  induction l with
  | nil => simp
  | cons x t ih =>
    intro h
    cases hx : f x with
    | none =>
      have := h x (List.mem_cons_self x t)
      rw [hx] at this
      simp at this
    | some y =>
      have ht := ih fun a ha => h a (List.mem_cons_of_mem x ha)
      simp [List.filterMap_cons, hx, ht]

/-- Behaviour of the collection loop on a run of full pages: each of the `n`
skip values of one `range'` segment triggers exactly one fetch, contributes
`b` records, and leaves the failure counter at zero. -/
theorem collectLoop_full_pages (fetch : Nat → Nat → List RawSale) (b : Nat)
    (hb : 0 < b) (hfull : ∀ s, (fetch b s).length = b)
    (hkeep : ∀ s r, r ∈ fetch b s → (parse_sale_data r).isSome) :
    ∀ (n start : Nat) (st : CollectState),
      (collectLoop fetch b (List.range' start n b) st).processed_count =
          st.processed_count + n * b ∧
      (collectLoop fetch b (List.range' start n b) st).requests.length =
          st.requests.length + n := by
  intro n
  induction n with
  | zero => intro start st; simp [List.range', collectLoop]
  | succ m ih =>
    intro start st
    have hne : fetch b start ≠ [] := by
      intro hnil
      have := hfull start
      rw [hnil] at this
      simp at this
      omega
    have hparsed : ((fetch b start).filterMap parse_sale_data).length = b := by
      rw [length_filterMap_of_isSome parse_sale_data (fetch b start)
        (fun r hr => hkeep start r hr)]
      exact hfull start
    rw [List.range'_succ]
    cases hx : fetch b start with
    | nil => exact absurd hx hne
    | cons x xs =>
      rw [hx] at hparsed
      have step :
          collectLoop fetch b (start :: List.range' (start + b) m b) st =
            collectLoop fetch b (List.range' (start + b) m b)
              (mergeBatch
                { st with requests := st.requests ++ [(start, st.processed_count)] }
                (x :: xs)) := by
        simp [collectLoop, hx]
      rw [step]
      have h := ih (start + b)
        (mergeBatch { st with requests := st.requests ++ [(start, st.processed_count)] }
          (x :: xs))
      rw [h.1, h.2]
      constructor
      · simp [mergeBatch, hparsed]
        ring
      · simp [mergeBatch]
        omega

/-- A raw record every field of which parses. -/
def demoSale : RawSale :=
  { transactionHash := some "0xabc"
    offerer := some "0xa"
    recipient := some "0xb"
    zone := some "0xz"
    orderHash := some "0xo"
    blockTimestamp := some "1700000000"
    blockNumber := some "100" }

/-- An arbitrary already-collected record, standing for one checkpoint row. -/
def demoRecord : TradeRecord :=
  { transaction_hash := "0xprev"
    order_hash := "0xo"
    seller := "0xa"
    buyer := "0xb"
    zone := "0xz"
    timestamp := 1700000000
    date := "2023-11-14"
    time := "22:13:20"
    day_of_week := 1
    day_name := "Tuesday"
    hour := 22
    is_weekend := false
    block_number := 99 }

/-- A fetcher that always returns a full page of parseable records. -/
def fetchFullPages : Nat → Nat → List RawSale := fun n _ => List.replicate n demoSale

/-- Claim C3 counterexample: resume from a checkpoint of K = 1 record with
target T = 2 and pageSize = 2.  Every fetch returns a full page and nothing
is dropped, yet the collector finishes with `processed_count = 3`, not
`T = 2`: the final count is `K + ceil((T-K)/pageSize)·pageSize`, which
overshoots `T` whenever `pageSize` does not divide `T - K`. -/
theorem collect_resume_target_counterexample :
    (∀ s, (fetchFullPages 2 s).length = 2) ∧
    (∀ s r, r ∈ fetchFullPages 2 s → (parse_sale_data r).isSome) ∧
    [demoRecord].length < 2 ∧
    (collect_and_process_nft_sales fetchFullPages 2 2 (some [demoRecord])).processed_count
      = 3 ∧
    (collect_and_process_nft_sales fetchFullPages 2 2 (some [demoRecord])).processed_count
      ≠ 2 := by
  refine ⟨fun s => by simp [fetchFullPages], fun s r hr => ?_, by decide, by decide, by decide⟩
  have hr' : r = demoSale := List.eq_of_mem_replicate hr
  rw [hr']
  decide

/-- Claim C3 amended: resuming from a checkpoint of `K` records with target
`T` (`K < T`) and full, drop-free pages, the collector issues exactly
`ceil((T-K)/pageSize)` page fetches and finishes with
`processed_count = K + ceil((T-K)/pageSize)·pageSize`; this equals `T`
exactly when `pageSize` divides `T - K` (the original claim's
`processed_count == T` is recovered only in that divisible case). -/
theorem collect_resume_page_count (fetch : Nat → Nat → List RawSale)
    (ck : List TradeRecord) (T b : Nat) (hb : 0 < b) (hKT : ck.length < T)
    (hfull : ∀ s, (fetch b s).length = b)
    (hkeep : ∀ s r, r ∈ fetch b s → (parse_sale_data r).isSome) :
    (collect_and_process_nft_sales fetch T b (some ck)).requests.length =
        (T - ck.length + b - 1) / b ∧
    (collect_and_process_nft_sales fetch T b (some ck)).processed_count =
        ck.length + ((T - ck.length + b - 1) / b) * b ∧
    ((T - ck.length) % b = 0 →
      (collect_and_process_nft_sales fetch T b (some ck)).processed_count = T) := by
  have h := collectLoop_full_pages fetch b hb hfull hkeep
    ((T - ck.length + b - 1) / b) ck.length
    ⟨ck, ck.length, 0, []⟩
  have hreq :
      (collect_and_process_nft_sales fetch T b (some ck)).requests.length =
        (T - ck.length + b - 1) / b := by
    have := h.2
    simpa [collect_and_process_nft_sales, initialCollectState, skipsList] using this
  have hpc :
      (collect_and_process_nft_sales fetch T b (some ck)).processed_count =
        ck.length + ((T - ck.length + b - 1) / b) * b := by
    have := h.1
    simpa [collect_and_process_nft_sales, initialCollectState, skipsList] using this
  refine ⟨hreq, hpc, fun hmod => ?_⟩
  obtain ⟨q, hq⟩ := Nat.dvd_of_mod_eq_zero hmod
  have hdiv : (T - ck.length + b - 1) / b = q := by
    have e1 : T - ck.length + b - 1 = (b - 1) + b * q := by omega
    rw [e1, Nat.add_mul_div_left _ _ hb, Nat.div_eq_of_lt (by omega)]
    omega
  rw [hpc, hdiv, Nat.mul_comm q b]
  omega

/-- Witness for the amended C3 at `K = 1`, `T = 2`, `pageSize = 2`: one
fetch is issued (`ceil(1/2) = 1`) and the final count is `1 + 1·2 = 3`. -/
theorem collect_resume_page_count_witness :
    (collect_and_process_nft_sales fetchFullPages 2 2 (some [demoRecord])).requests.length
        = 1 ∧
    (collect_and_process_nft_sales fetchFullPages 2 2 (some [demoRecord])).processed_count
        = 3 := by
  have h := collect_resume_page_count fetchFullPages [demoRecord] 2 2 (by decide)
    (by decide) (fun s => by simp [fetchFullPages])
    (fun s r hr => by rw [List.eq_of_mem_replicate hr]; decide)
  exact ⟨h.1, h.2.1⟩

/-- However the loop terminates, the offsets it requested form a prefix of
the skip list it was given. -/
theorem collectLoop_requests_prefix (fetch : Nat → Nat → List RawSale) (b : Nat) :
    ∀ (skips : List Nat) (st : CollectState),
      ∃ m, m ≤ skips.length ∧
        (collectLoop fetch b skips st).requests.map Prod.fst =
          st.requests.map Prod.fst ++ skips.take m := by
  intro skips
  induction skips with
  | nil => intro st; exact ⟨0, by simp, by simp [collectLoop]⟩
  | cons skip rest ih =>
    intro st
    cases hx : fetch b skip with
    | nil =>
      by_cases hm : max_errors ≤ st.error_count + 1
      · refine ⟨1, by simp, ?_⟩
        simp [collectLoop, hx, hm]
      · obtain ⟨m, hmle, hmap⟩ :=
          ih { st with
                requests := st.requests ++ [(skip, st.processed_count)]
                error_count := st.error_count + 1 }
        refine ⟨m + 1, by simpa using hmle, ?_⟩
        have step :
            collectLoop fetch b (skip :: rest) st =
              collectLoop fetch b rest
                { st with
                  requests := st.requests ++ [(skip, st.processed_count)]
                  error_count := st.error_count + 1 } := by
          simp [collectLoop, hx, hm]
        rw [step, hmap]
        simp
    | cons x xs =>
      obtain ⟨m, hmle, hmap⟩ :=
        ih (mergeBatch
          { st with requests := st.requests ++ [(skip, st.processed_count)] } (x :: xs))
      refine ⟨m + 1, by simpa using hmle, ?_⟩
      have step :
          collectLoop fetch b (skip :: rest) st =
            collectLoop fetch b rest
              (mergeBatch
                { st with requests := st.requests ++ [(skip, st.processed_count)] }
                (x :: xs)) := by
        simp [collectLoop, hx]
      rw [step, hmap]
      simp [mergeBatch]

/-- A prefix of an arithmetic range is the shorter arithmetic range. -/
theorem take_range' (step : Nat) :
    ∀ (m n s : Nat), m ≤ n → (List.range' s n step).take m = List.range' s m step := by
  intro m
  induction m with
  | zero => intro n s _; simp [List.range']
  | succ k ih =>
    intro n s hmn
    obtain ⟨n', rfl⟩ : ∃ n', n = n' + 1 := ⟨n - 1, by omega⟩
    rw [List.range'_succ, List.range'_succ, List.take_succ_cons,
      ih n' (s + step) (by omega)]

/-- Claim C4 counterexample: with a fetcher whose first page is empty, the
second request is issued at offset `pageSize` while `processed_count` is
still 0 — the requested offset does not equal the number of records
accumulated so far.  (`requests` records, per fetch, the pair
(offset requested, `processed_count` at issuance).) -/
theorem collect_offset_eq_processed_counterexample :
    (collect_and_process_nft_sales fetchAlwaysEmpty 200 100 none).requests
        = [(0, 0), (100, 0)] ∧
    ¬ (∀ p ∈ (collect_and_process_nft_sales fetchAlwaysEmpty 200 100 none).requests,
        p.1 = p.2) := by
  decide

/-- Claim C4 amended: the offsets requested by the collection loop are
exactly `K, K + pageSize, K + 2·pageSize, …` for some count `m` (where `K`
is the resumed `processed_count`); hence pages never overlap and the offset
strictly advances by `pageSize` each iteration.  The offset equals the
current `processed_count` only while every preceding page was full and
nothing was dropped; after an empty page or a dropped record the offset
runs ahead of `processed_count` (see the counterexample). -/
theorem collect_offsets_advance_by_pagesize (fetch : Nat → Nat → List RawSale)
    (T b : Nat) (ck : Option (List TradeRecord)) :
    ∃ m, (collect_and_process_nft_sales fetch T b ck).requests.map Prod.fst =
      List.range' (initialCollectState ck).processed_count m b := by
  obtain ⟨m, hmle, hmap⟩ := collectLoop_requests_prefix fetch b
    (skipsList (initialCollectState ck).processed_count T b) (initialCollectState ck)
  refine ⟨m, ?_⟩
  have hreq : (initialCollectState ck).requests = [] := by
    cases ck <;> simp [initialCollectState]
  have hcollect : collect_and_process_nft_sales fetch T b ck =
      collectLoop fetch b
        (skipsList (initialCollectState ck).processed_count T b)
        (initialCollectState ck) := rfl
  rw [skipsList, List.length_range'] at hmle
  rw [hcollect, hmap, hreq, skipsList, take_range' b m _ _ hmle]
  simp

/-- The running total built by the consideration loop equals the sum of
`amount / 10^18` over the NATIVE/ERC20 items. -/
theorem processPayments_total (items : List ConsiderationItem) :
    (processPayments items).2 =
      ((items.filter fun it => it.itemType = 0 ∨ it.itemType = 1).map
        fun it => (it.amount : ℚ) / 10 ^ 18).sum := by
  suffices h : ∀ acc : List PaymentItemInfo × ℚ,
      (items.foldl
        (fun acc item =>
          let t := item.itemType
          let base : PaymentItemInfo :=
            { item_type := t
              item_type_name := get_item_type_name t
              token_address := item.token
              token_id := item.identifier
              amount := item.amount
              recipient := item.recipient
              amount_eth := none }
          if t ∈ [0, 1] then
            let amount_eth := fromWeiEther item.amount
            (acc.1 ++ [{ base with amount_eth := some amount_eth }], acc.2 + amount_eth)
          else (acc.1 ++ [base], acc.2)) acc).2 =
      acc.2 +
        ((items.filter fun it => it.itemType = 0 ∨ it.itemType = 1).map
          fun it => (it.amount : ℚ) / 10 ^ 18).sum by
    have := h ([], 0)
    simpa [processPayments] using this
  induction items with
  | nil => intro acc; simp
  | cons it t ih =>
    intro acc
    by_cases hit : it.itemType = 0 ∨ it.itemType = 1
    · have hmem : it.itemType ∈ [0, 1] := by
        rcases hit with h | h <;> simp [h]
      simp only [List.foldl_cons, List.filter_cons, hmem, if_pos hmem]
      rw [ih]
      have hdec : decide (it.itemType = 0 ∨ it.itemType = 1) = true := by
        simpa using hit
      rw [hdec]
      simp [fromWeiEther]
      ring
    · have hmem : it.itemType ∉ ([0, 1] : List Nat) := by
        simpa using hit
      simp only [List.foldl_cons, List.filter_cons, if_neg hmem]
      rw [ih]
      have hdec : decide (it.itemType = 0 ∨ it.itemType = 1) = false := by
        simpa using hit
      rw [hdec]
      simp

/-- Claim C7: whenever `decode_transaction` succeeds, `total_price_eth` is
the sum over ALL consideration items of the first decoded event whose item
type is NATIVE (0) or ERC20 (1) of `amount / 10^18` (the 18-decimal
`from_wei(…, 'ether')` convention); items of other types contribute
nothing, and no recipient filtering is applied.  (The script accumulates
Python floats; the model sums the exact rationals those floats
approximate.) -/
theorem total_price_eth_sum (w3 : W3) (http : String → Except String Unit)
    (tx_hash : String) (sc : Contract) (tx : TxData) (receipt : ReceiptData)
    (block : BlockData) (info : TransactionInfo) (e : OrderFulfilledArgs)
    (es : List OrderFulfilledArgs)
    (htx : w3.getTransaction tx_hash = Except.ok tx)
    (hrc : w3.getTransactionReceipt tx_hash = Except.ok receipt)
    (hbl : w3.getBlock receipt.blockNumber = Except.ok block)
    (hts : fromtimestampOk block.timestamp = true)
    (hev : orderFulfilledEvents receipt.logs sc = e :: es)
    (hok : decode_transaction w3 http tx_hash sc = Except.ok info) :
    info.total_price_eth =
      ((e.consideration.filter fun it => it.itemType = 0 ∨ it.itemType = 1).map
        fun it => (it.amount : ℚ) / 10 ^ 18).sum := by
  unfold decode_transaction at hok
  cases hmap : List.mapM.loop (processOfferItem http) e.offer [] with
  | error err =>
    simp [htx, hrc, hbl, hts, hev, hmap] at hok
  | ok nl =>
    simp [htx, hrc, hbl, hts, hev, hmap] at hok
    rw [← hok]
    exact processPayments_total e.consideration

/-- A consideration list with one NATIVE payment item and one non-payment
item. -/
def considerationDemo : List ConsiderationItem :=
  [{ itemType := 0, token := "0x0000000000000000000000000000000000000000",
     identifier := 0, amount := 2 * 10 ^ 18, recipient := "0xsel" },
   { itemType := 2, token := "0xnft", identifier := 1, amount := 1,
     recipient := "0xbuy" }]

/-- A decoded `OrderFulfilled` event with an empty offer array and the
demo consideration. -/
def orderArgsDemo : OrderFulfilledArgs :=
  { orderHash := "0xoh", offerer := "0xsel", zone := "0xz", recipient := "0xbuy",
    offer := [], consideration := considerationDemo }

/-- A web3 oracle whose receipt carries one Seaport `OrderFulfilled` log
(log address lower-case, exercising the case-insensitive compare against
the mixed-case contract address). -/
def w3WithEvent : W3 :=
  { getTransaction := fun _ =>
      Except.ok { fromAddr := "0xfrom", toAddr := some "0xto", gasPrice := 10 ^ 9 }
    getTransactionReceipt := fun _ =>
      Except.ok
        { blockNumber := 18000000, gasUsed := 21000,
          logs := [{ address := "0x00000000000000adc04c56bf30ac9d3c0aaf14dc",
                     parsedOrderFulfilled := some orderArgsDemo }] }
    getBlock := fun _ => Except.ok { timestamp := 1700000000 } }

/-- Witness for C7 at the concrete decoded transaction. -/
theorem total_price_eth_sum_witness :
    ∃ info : TransactionInfo,
      decode_transaction w3WithEvent (fun _ => Except.ok ()) "0xh" seaportContract =
        Except.ok info ∧
      info.total_price_eth =
        ((considerationDemo.filter fun it => it.itemType = 0 ∨ it.itemType = 1).map
          fun it => (it.amount : ℚ) / 10 ^ 18).sum :=
  ⟨_, rfl,
    total_price_eth_sum w3WithEvent (fun _ => Except.ok ()) "0xh" seaportContract
      _ _ _ _ orderArgsDemo [] rfl rfl rfl (by decide) rfl rfl⟩

/-- `filterMap` over position lookups that all succeed with a shifted index
keeps the length and maps first components to the shifted positions. -/
theorem filterMap_get_shift {β : Type} (g : Nat → Option (Nat × β)) (off : Nat) :
    ∀ pick : List Nat, (∀ i ∈ pick, ∃ r, g i = some (off + i, r)) →
      (pick.filterMap g).length = pick.length ∧
      (pick.filterMap g).map Prod.fst = pick.map fun i => off + i := by
  intro pick
  induction pick with
  | nil => simp
  | cons i t ih =>
    intro h
    obtain ⟨r, hr⟩ := h i (List.mem_cons_self i t)
    obtain ⟨ihl, ihm⟩ := ih fun a ha => h a (List.mem_cons_of_mem i ha)
    simp [List.filterMap_cons, hr, ihl, ihm]

/-- Claim C8: for 3000 records and `sample_size = 1000`, the LLM sample is
exactly the first 500 rows of the timestamp-descending ordering (the 500
most-recent records) followed by the 500 drawn rows of the remaining 2500;
it has exactly 1000 rows and no duplicates.  The draw is any duplicate-free
choice of 500 positions among the 2500 older rows (pandas'
`sample(500)` without replacement; uniformity of its RNG is abstracted —
the theorem holds for every such draw). -/
theorem llm_sample_composition (records : List TradeRecord) (pick : List Nat)
    (hlen : records.length = 3000) (hpl : pick.length = 500) (hnd : pick.Nodup)
    (hlt : ∀ i ∈ pick, i < 2500) :
    (prepare_data_for_llm records 1000 pick).length = 1000 ∧
    prepare_data_for_llm records 1000 pick =
      ((addTransactionIndex (sortDescByTimestamp records)).take 500 ++
        pick.filterMap fun i =>
          ((addTransactionIndex (sortDescByTimestamp records)).drop 500).get? i).map
        toLlmRow ∧
    List.Pairwise (fun a b : TradeRecord => b.timestamp ≤ a.timestamp)
      (sortDescByTimestamp records) ∧
    (sortDescByTimestamp records).Perm records ∧
    (prepare_data_for_llm records 1000 pick).Nodup := by
  have hsl : (sortDescByTimestamp records).length = 3000 := by
    rw [sortDescByTimestamp, List.length_mergeSort, hlen]
  have hil : (addTransactionIndex (sortDescByTimestamp records)).length = 3000 := by
    rw [addTransactionIndex, List.length_zip, List.length_range', hsl]
    simp
  have heq : prepare_data_for_llm records 1000 pick =
      ((addTransactionIndex (sortDescByTimestamp records)).take 500 ++
        pick.filterMap fun i =>
          ((addTransactionIndex (sortDescByTimestamp records)).drop 500).get? i).map
        toLlmRow := by
    simp only [prepare_data_for_llm, hil]
    norm_num
  have hmf : (addTransactionIndex (sortDescByTimestamp records)).map Prod.fst =
      List.range' 1 3000 := by
    rw [addTransactionIndex]
    rw [List.map_fst_zip _ _ (by rw [List.length_range'])]
    rw [hsl]
  have hrecfst :
      ((addTransactionIndex (sortDescByTimestamp records)).take 500).map Prod.fst =
        List.range' 1 500 := by
    rw [List.map_take, hmf, take_range' 1 500 3000 1 (by norm_num)]
  have holder : ∀ i ∈ pick, ∃ r,
      ((addTransactionIndex (sortDescByTimestamp records)).drop 500).get? i =
        some (501 + i, r) := by
    intro i hi
    have hi' : i < 2500 := hlt i hi
    have hsi : 500 + i < (sortDescByTimestamp records).length := by omega
    refine ⟨(sortDescByTimestamp records).get ⟨500 + i, hsi⟩, ?_⟩
    rw [List.get?_eq_getElem?, List.getElem?_drop, addTransactionIndex]
    apply List.getElem?_zip_eq_some.mpr
    constructor
    · have h1 := @List.getElem?_range' 1 1 (500 + i)
        (sortDescByTimestamp records).length (by omega)
      rw [h1]
      congr 1
      omega
    · exact List.getElem?_eq_getElem hsi
  obtain ⟨hpickedlen, hpickedfst⟩ :=
    filterMap_get_shift
      (fun i => ((addTransactionIndex (sortDescByTimestamp records)).drop 500).get? i)
      501 pick holder
  have hlen1000 : (prepare_data_for_llm records 1000 pick).length = 1000 := by
    rw [heq, List.length_map, List.length_append, List.length_take, hil, hpickedlen,
      hpl]
    decide
  have hfstnodup :
      (((addTransactionIndex (sortDescByTimestamp records)).take 500 ++
        pick.filterMap fun i =>
          ((addTransactionIndex (sortDescByTimestamp records)).drop 500).get? i).map
        Prod.fst).Nodup := by
    rw [List.map_append, hrecfst, hpickedfst]
    apply List.Nodup.append
    · exact List.nodup_range' 1 500
    · exact hnd.map fun a b h => by omega
    · intro a ha hb
      rw [List.mem_range'] at ha
      obtain ⟨j, hj, rfl⟩ := ha
      rw [List.mem_map] at hb
      obtain ⟨i, hi, hik⟩ := hb
      omega
  have hidx : (prepare_data_for_llm records 1000 pick).map
      (fun r => r.transaction_index) =
        (((addTransactionIndex (sortDescByTimestamp records)).take 500 ++
          pick.filterMap fun i =>
            ((addTransactionIndex (sortDescByTimestamp records)).drop 500).get? i).map
          Prod.fst) := by
    rw [heq, List.map_map]
    rfl
  have hnodup : (prepare_data_for_llm records 1000 pick).Nodup := by
    apply List.Nodup.of_map (fun r : LlmRow => r.transaction_index)
    rw [hidx]
    exact hfstnodup
  have hsorted : List.Pairwise (fun a b : TradeRecord => b.timestamp ≤ a.timestamp)
      (sortDescByTimestamp records) := by
    have h := @List.sorted_mergeSort TradeRecord
      (fun a b : TradeRecord => decide (b.timestamp ≤ a.timestamp))
      (fun a b c hab hbc => by
        simp only [decide_eq_true_eq] at hab hbc ⊢
        exact le_trans hbc hab)
      (fun a b => by
        simp only [Bool.or_eq_true, decide_eq_true_eq]
        exact le_total b.timestamp a.timestamp)
      records
    exact h.imp fun hab => by simpa using hab
  exact ⟨hlen1000, heq, hsorted, List.mergeSort_perm records _, hnodup⟩

/-- A 3000-record dataset with strictly increasing timestamps. -/
def recordsC8 : List TradeRecord :=
  (List.range 3000).map fun i : Nat => { demoRecord with timestamp := (i : Int) }

/-- Witness for C8: 3000 records, the draw taking the first 500 older rows;
the sample has 1000 rows and no duplicates. -/
theorem llm_sample_composition_witness :
    (prepare_data_for_llm recordsC8 1000 (List.range 500)).length = 1000 ∧
    (prepare_data_for_llm recordsC8 1000 (List.range 500)).Nodup := by
  have h := llm_sample_composition recordsC8 (List.range 500)
    (by rw [recordsC8, List.length_map, List.length_range]) (by simp)
    (List.nodup_range 500)
    (fun i hi => by
      rw [List.mem_range] at hi
      omega)
  exact ⟨h.1, h.2.2.2.2⟩
